import Mathlib

/-!
Verification of the TSP tour file loader and renderer of
`plotting/plot_tsp_path.py` (functions `parse_node_data` and `plot_tour`),
shallowly embedded in Lean. Lines of the input file are Lean strings;
Python `dict` is an association list with in-place overwrite; Python
floats are modelled as rationals produced by a decimal parser; exceptions
are `Except` errors.
-/

/-- Equality of `Except` results is decidable when both components' is. -/
instance {ε α : Type} [DecidableEq ε] [DecidableEq α] : DecidableEq (Except ε α) := fun a b =>
  match a, b with
  | .ok x, .ok y =>
    if h : x = y then isTrue (congrArg Except.ok h)
    else isFalse (fun hc => h (Except.ok.inj hc))
  | .ok _, .error _ => isFalse (fun hc => Except.noConfusion hc)
  | .error _, .ok _ => isFalse (fun hc => Except.noConfusion hc)
  | .error e, .error f =>
    if h : e = f then isTrue (congrArg Except.error h)
    else isFalse (fun hc => h (Except.error.inj hc))

namespace PlotTsp

/-- One whitespace-separated token, as a list of characters. -/
abbrev Tok := List Char

/-- Python `str.split()` with no arguments: split on runs of whitespace,
dropping empty pieces. Accumulator holds the current token reversed. -/
def splitWsAux : List Char → List Char → List Tok
  | [], cur => if cur = [] then [] else [cur.reverse]
  | c :: cs, cur =>
    if c.isWhitespace then
      if cur = [] then splitWsAux cs [] else cur.reverse :: splitWsAux cs []
    else splitWsAux cs (c :: cur)

/-- `line.split()` from the source: whitespace-run tokenisation. -/
def splitWs (l : List Char) : List Tok := splitWsAux l []

/-- Strip leading and trailing whitespace (Python `str.strip()`). -/
def stripChars (l : List Char) : List Char :=
  ((l.dropWhile Char.isWhitespace).reverse.dropWhile Char.isWhitespace).reverse

/-- The literal section-marker token from the source. -/
def markerTok : List Char := "NODE_COORD_SECTION".toList

/-- `startsWithTok l p` holds when `p` is an initial run of `l`
(Python `str.startswith`). -/
def startsWithTok : List Char → List Char → Bool
  | _, [] => true
  | [], _ :: _ => false
  | c :: cs, d :: ds => c == d && startsWithTok cs ds

/-- The source's marker test: `line.startswith("NODE_COORD_SECTION")`. -/
def isMarker (line : String) : Bool := startsWithTok line.toList markerTok

/-- The spec's wording of the marker test (for comparison with `isMarker`):
the line's content, trimmed of surrounding whitespace, equals the literal
token exactly. -/
def markerSpecRecognised (line : String) : Bool :=
  stripChars line.toList == markerTok

/-- Value of a digit string, most significant first. -/
def digitsToNat (l : List Char) : Nat :=
  l.foldl (fun n c => 10 * n + (c.toNat - 48)) 0

/-- All characters are decimal digits and there is at least one. -/
def allDigits (l : List Char) : Bool :=
  decide (l ≠ []) && l.all Char.isDigit

/-- Python `int(token)`: optional surrounding whitespace, optional sign,
then a nonempty digit string; `none` models the `ValueError`. -/
def parseInt (t : Tok) : Option Int :=
  match stripChars t with
  | '+' :: rest => if allDigits rest then some (digitsToNat rest : Int) else none
  | '-' :: rest => if allDigits rest then some (-(digitsToNat rest : Int)) else none
  | l => if allDigits l then some (digitsToNat l : Int) else none

/-- Unsigned decimal with optional fractional part: `d+`, `d+.d*`, `.d+`;
the value of `d1.d2` is `(d1 * 10 ^ |d2| + d2) / 10 ^ |d2|`. -/
def parseUnsignedFloat (l : List Char) : Option Rat :=
  let d1 := l.takeWhile Char.isDigit
  let rest := l.dropWhile Char.isDigit
  match rest with
  | [] => if d1 = [] then none else some (mkRat (digitsToNat d1) 1)
  | '.' :: rest2 =>
    let d2 := rest2.takeWhile Char.isDigit
    let rest3 := rest2.dropWhile Char.isDigit
    if rest3 = [] ∧ (d1 ≠ [] ∨ d2 ≠ []) then
      some (mkRat (digitsToNat d1 * 10 ^ d2.length + digitsToNat d2) (10 ^ d2.length))
    else none
  | _ => none

/-- Python `float(token)` on plain decimal notation: optional surrounding
whitespace, optional sign, unsigned decimal; `none` models `ValueError`. -/
def parseFloat (t : Tok) : Option Rat :=
  match stripChars t with
  | '+' :: rest => parseUnsignedFloat rest
  | '-' :: rest => (parseUnsignedFloat rest).map Neg.neg
  | l => parseUnsignedFloat l

/-- The node table `nodes`: Python dict from node id to coordinates,
as an association list in insertion order. -/
abbrev NodeTable := List (Int × Rat × Rat)

/-- Python `nodes[node_id] = (x, y)`: overwrite in place if the key is
present, else append at the end. -/
def insertNode : NodeTable → Int → Rat × Rat → NodeTable
  | [], k, v => [(k, v)]
  | (k', v') :: rest, k, v =>
    if k' = k then (k', v) :: rest else (k', v') :: insertNode rest k v

/-- Python `nodes[i]` as a partial lookup; `none` models the `KeyError`. -/
def lookupNode : NodeTable → Int → Option (Rat × Rat)
  | [], _ => none
  | (k', v') :: rest, k => if k' = k then some v' else lookupNode rest k

/-- Errors `parse_node_data` can raise: the explicit
`ValueError("NODE_COORD_SECTION not found in the file")` and the
`ValueError` propagating from `int`/`float` on a malformed token. -/
inductive LoadErr where
  | formatError
  | parseError
  deriving DecidableEq, Repr

/-- Scan for the first line passing the source's marker test and return
the lines after it (`lines[start_index:]`), or `none` when absent. -/
def findMarker : List String → Option (List String)
  | [] => none
  | line :: rest => if isMarker line then some rest else findMarker rest

/-- `len(parts) >= 3` together with `parts[0], parts[1], parts[2]`: the
first three tokens of the line, or `none` when there are fewer than three. -/
def lineTriple (line : String) : Option (Tok × Tok × Tok) :=
  match splitWs line.toList with
  | p0 :: p1 :: p2 :: _ => some (p0, p1, p2)
  | _ => none

/-- The body of the coordinate loop for one line: tokenise; with three or
more tokens parse id, x, y (a bad token raises), otherwise skip the line. -/
def parseLineInto (nodes : NodeTable) (line : String) : Except LoadErr NodeTable :=
  match lineTriple line with
  | some (p0, p1, p2) =>
    match parseInt p0, parseFloat p1, parseFloat p2 with
    | some i, some x, some y => .ok (insertNode nodes i (x, y))
    | _, _, _ => .error .parseError
  | none => .ok nodes

/-- The coordinate loop `for line in lines[start_index:]`. -/
def loadCoords (nodes : NodeTable) : List String → Except LoadErr NodeTable
  | [] => .ok nodes
  | line :: rest =>
    match parseLineInto nodes line with
    | .error e => .error e
    | .ok nodes' => loadCoords nodes' rest

/-- `parse_node_data`, over the file's list of lines. -/
def parse_node_data (lines : List String) : Except LoadErr NodeTable :=
  match findMarker lines with
  | none => .error .formatError
  | some rest => loadCoords [] rest

/-- Errors `plot_tour` can raise: `KeyError` from `nodes[i]` on an unknown
identifier, and `IndexError` from `tour_x[0]` on an empty tour. -/
inductive PlotErr where
  | keyError (i : Int)
  | indexError
  deriving DecidableEq, Repr

/-- The loop `for i in indices: x, y = nodes[i]`, collecting the visited
coordinates; fails at the first unknown identifier. -/
def collectPoints (nodes : NodeTable) : List Int → Except PlotErr (List (Rat × Rat))
  | [] => .ok []
  | i :: rest =>
    match lookupNode nodes i with
    | none => .error (.keyError i)
    | some p =>
      match collectPoints nodes rest with
      | .error e => .error e
      | .ok ps => .ok (p :: ps)

/-- `plot_tour`: collect the coordinates in order, then append the first
point again (`tour_x.append(tour_x[0])`); the plotted polyline is this
point sequence. -/
def plot_tour (nodes : NodeTable) (indices : List Int) : Except PlotErr (List (Rat × Rat)) :=
  match collectPoints nodes indices with
  | .error e => .error e
  | .ok [] => .error .indexError
  | .ok (p :: ps) => .ok ((p :: ps) ++ [p])

/-- The image file `main` writes: `plt.savefig` runs only after `plot_tour`
returns, so an error in `plot_tour` means no file is written (`none`). -/
def savedImage (nodes : NodeTable) (indices : List Int) : Option (List (Rat × Rat)) :=
  match plot_tour nodes indices with
  | .ok pts => some pts
  | .error _ => none

/-- The line segments of a plotted polyline: consecutive point pairs. -/
def segments (pts : List (Rat × Rat)) : List ((Rat × Rat) × (Rat × Rat)) :=
  pts.zip pts.tail

/-- Parse one line as a coordinate record when it has at least three
tokens and they parse; used to state properties of well-formed lines. -/
def parseCoordLine (line : String) : Option (Int × Rat × Rat) :=
  match lineTriple line with
  | some (p0, p1, p2) =>
    match parseInt p0, parseFloat p1, parseFloat p2 with
    | some i, some x, some y => some (i, x, y)
    | _, _, _ => none
  | none => none

/-- All lines parse as coordinate records, collected in order; `none`
when some line does not. Used to state hypotheses about well-formed
coordinate sections. -/
def parseAll : List String → Option (List (Int × Rat × Rat))
  | [] => some []
  | line :: rest =>
    match parseCoordLine line, parseAll rest with
    | some r, some rs => some (r :: rs)
    | _, _ => none

/-- All identifiers are present in the table, with their coordinates
collected in order; `none` when some identifier is absent. -/
def lookupAll (nodes : NodeTable) : List Int → Option (List (Rat × Rat))
  | [] => some []
  | i :: rest =>
    match lookupNode nodes i, lookupAll nodes rest with
    | some p, some ps => some (p :: ps)
    | _, _ => none

/-- The value carried by the last coordinate record for identifier `i`,
when any record for `i` exists. -/
def lastVal (recs : List (Int × Rat × Rat)) (i : Int) : Option (Rat × Rat) :=
  (recs.reverse.find? (fun r => r.1 == i)).map Prod.snd

/-- The concrete node table of the spec's test scenario. -/
def exNodes : NodeTable := [(1, 0, 0), (2, 10, 0), (3, 10, 10)]

/-- The concrete input file of the spec's test scenario. -/
def exFile : List String :=
  ["NAME: test", "NODE_COORD_SECTION", "1 0.0 0.0", "2 10.0 0.0", "3 10.0 10.0", "EOF"]

/-! ### Helper lemmas -/

theorem startsWithTok_iff (l p : List Char) : startsWithTok l p = true ↔ ∃ s, l = p ++ s := by
  induction p generalizing l with
  | nil => simp [startsWithTok]
  | cons d ds ih =>
    cases l with
    | nil => simp [startsWithTok]
    | cons c cs =>
      simp only [startsWithTok, Bool.and_eq_true, beq_iff_eq, ih, List.cons_append,
        List.cons.injEq]
      constructor
      · rintro ⟨hcd, s, hs⟩
        exact ⟨s, hcd, hs⟩
      · rintro ⟨s, hcd, hs⟩
        exact ⟨hcd, s, hs⟩

theorem findMarker_eq_none (lines : List String) (h : ∀ l ∈ lines, isMarker l = false) :
    findMarker lines = none := by
  induction lines with
  | nil => rfl
  | cons line rest ih =>
    have h1 : isMarker line = false := h line (by simp)
    simp only [findMarker, h1, Bool.false_eq_true, if_false]
    exact ih fun l hl => h l (by simp [hl])

theorem findMarker_append (header : List String) (marker : String) (rest : List String)
    (hh : ∀ l ∈ header, isMarker l = false) (hm : isMarker marker = true) :
    findMarker (header ++ marker :: rest) = some rest := by
  induction header with
  | nil => simp [findMarker, hm]
  | cons line hd ih =>
    have h1 : isMarker line = false := hh line (by simp)
    simp only [List.cons_append, findMarker, h1, Bool.false_eq_true, if_false]
    exact ih fun l hl => hh l (by simp [hl])

theorem parseLineInto_eq (nodes : NodeTable) (line : String) :
    parseLineInto nodes line =
      match lineTriple line, parseCoordLine line with
      | none, _ => .ok nodes
      | some _, some r => .ok (insertNode nodes r.1 r.2)
      | some _, none => .error .parseError := by
  cases ht : lineTriple line with
  | none => simp only [parseLineInto, parseCoordLine, ht]
  | some t =>
    obtain ⟨p0, p1, p2⟩ := t
    simp only [parseLineInto, parseCoordLine, ht]
    cases parseInt p0 with
    | none => rfl
    | some i =>
      cases parseFloat p1 with
      | none => rfl
      | some x =>
        cases parseFloat p2 with
        | none => rfl
        | some y => rfl

theorem parseLineInto_of_coord (nodes : NodeTable) (line : String) (r : Int × Rat × Rat)
    (h : parseCoordLine line = some r) :
    parseLineInto nodes line = .ok (insertNode nodes r.1 r.2) := by
  rw [parseLineInto_eq]
  cases ht : lineTriple line with
  | none => unfold parseCoordLine at h; rw [ht] at h; cases h
  | some t => rw [h]

theorem parseLineInto_of_short (nodes : NodeTable) (line : String)
    (h : lineTriple line = none) : parseLineInto nodes line = .ok nodes := by
  rw [parseLineInto_eq, h]

theorem parseLineInto_of_malformed (nodes : NodeTable) (line : String)
    (t : Tok × Tok × Tok) (ht : lineTriple line = some t)
    (hpc : parseCoordLine line = none) :
    parseLineInto nodes line = .error .parseError := by
  rw [parseLineInto_eq, ht, hpc]

theorem lineTriple_none_of_short (line : String)
    (h : (splitWs line.toList).length < 3) : lineTriple line = none := by
  unfold lineTriple
  cases hs : splitWs line.toList with
  | nil => rfl
  | cons a l1 =>
    cases l1 with
    | nil => rfl
    | cons b l2 =>
      cases l2 with
      | nil => rfl
      | cons c l3 =>
        rw [hs] at h
        simp only [List.length_cons] at h
        omega

theorem loadCoords_of_parseAll (rest : List String) (recs : List (Int × Rat × Rat))
    (h : parseAll rest = some recs) (nodes : NodeTable) :
    loadCoords nodes rest = .ok (recs.foldl (fun t r => insertNode t r.1 r.2) nodes) := by
  induction rest generalizing recs nodes with
  | nil =>
    unfold parseAll at h
    cases h
    rfl
  | cons line rest' ih =>
    unfold parseAll at h
    cases hc : parseCoordLine line with
    | none => rw [hc] at h; cases h
    | some r =>
      rw [hc] at h
      cases hp : parseAll rest' with
      | none => rw [hp] at h; cases h
      | some rs =>
        rw [hp] at h
        cases h
        simp only [loadCoords, parseLineInto_of_coord nodes line r hc, List.foldl_cons]
        exact ih rs hp (insertNode nodes r.1 r.2)

theorem parseAll_length (rest : List String) (recs : List (Int × Rat × Rat))
    (h : parseAll rest = some recs) : recs.length = rest.length := by
  induction rest generalizing recs with
  | nil => unfold parseAll at h; cases h; rfl
  | cons line rest' ih =>
    unfold parseAll at h
    cases hc : parseCoordLine line with
    | none => rw [hc] at h; cases h
    | some r =>
      rw [hc] at h
      cases hp : parseAll rest' with
      | none => rw [hp] at h; cases h
      | some rs =>
        rw [hp] at h
        cases h
        simp [ih rs hp]

theorem insertNode_of_not_mem (t : NodeTable) (k : Int) (v : Rat × Rat)
    (h : k ∉ t.map Prod.fst) : insertNode t k v = t ++ [(k, v)] := by
  induction t with
  | nil => rfl
  | cons e t' ih =>
    obtain ⟨k', v'⟩ := e
    simp only [List.map_cons, List.mem_cons] at h
    push_neg at h
    obtain ⟨hne, hmem⟩ := h
    simp only [insertNode, List.cons_append]
    rw [if_neg (fun hc => hne hc.symm), ih hmem]

theorem foldl_insertNode_fresh (recs : List (Int × Rat × Rat)) (t : NodeTable)
    (hnd : (recs.map Prod.fst).Nodup)
    (hfresh : ∀ r ∈ recs, r.1 ∉ t.map Prod.fst) :
    recs.foldl (fun t' r => insertNode t' r.1 r.2) t = t ++ recs := by
  induction recs generalizing t with
  | nil => simp
  | cons r rs ih =>
    simp only [List.map_cons, List.nodup_cons] at hnd
    obtain ⟨hr, hnd'⟩ := hnd
    have hfr : r.1 ∉ t.map Prod.fst := hfresh r (by simp)
    rw [List.foldl_cons, insertNode_of_not_mem t r.1 r.2 hfr]
    have hfresh' : ∀ r' ∈ rs, r'.1 ∉ (t ++ [(r.1, r.2)]).map Prod.fst := by
      intro r' hr'
      simp only [List.map_append, List.mem_append, List.map_cons, List.map_nil,
        List.mem_singleton]
      rintro (hmem | hmem)
      · exact hfresh r' (List.mem_cons_of_mem r hr') hmem
      · exact hr (hmem ▸ List.mem_map.mpr ⟨r', hr', rfl⟩)
    rw [ih (t ++ [(r.1, r.2)]) hnd' hfresh']
    simp

theorem lookupNode_of_mem_nodup (recs : List (Int × Rat × Rat))
    (hnd : (recs.map Prod.fst).Nodup) (r : Int × Rat × Rat) (hr : r ∈ recs) :
    lookupNode recs r.1 = some r.2 := by
  induction recs with
  | nil => cases hr
  | cons e rs ih =>
    simp only [List.map_cons, List.nodup_cons] at hnd
    obtain ⟨he, hnd'⟩ := hnd
    rcases List.mem_cons.mp hr with heq | hmem
    · subst heq
      obtain ⟨k, v⟩ := r
      simp [lookupNode]
    · have hne : e.1 ≠ r.1 := fun hc => he (hc ▸ List.mem_map.mpr ⟨r, hmem, rfl⟩)
      obtain ⟨k, v⟩ := e
      simp only [lookupNode]
      rw [if_neg hne]
      exact ih hnd' hmem

/-! ### C1: marker recognition -/

/-- C1 counterexample: the claim says a line is accepted as the marker iff
its trimmed content equals `NODE_COORD_SECTION`; the code rejects a line
with a leading space whose trimmed content is the token, and accepts
`NODE_COORD_SECTIONS`, whose trimmed content is not the token. -/
theorem c1_counterexample :
    (markerSpecRecognised " NODE_COORD_SECTION" = true ∧
      isMarker " NODE_COORD_SECTION" = false) ∧
    (markerSpecRecognised "NODE_COORD_SECTIONS" = false ∧
      isMarker "NODE_COORD_SECTIONS" = true) := by
  decide

/-- C1 (amended): `parse_node_data` recognises as the section marker any
line that begins with the literal token `NODE_COORD_SECTION`: a line is
accepted iff the token is an initial run of the raw, untrimmed line. -/
theorem c1_marker_is_startswith (line : String) :
    isMarker line = true ↔ ∃ s, line.toList = markerTok ++ s := by
  simpa [isMarker] using startsWithTok_iff line.toList markerTok

/-! ### C2: segment count of a three-node tour -/

/-- C2 counterexample: on the order `[1, 2, 3]` over the spec's triangle,
`plot_tour` plots 4 points forming exactly 3 line segments
(A→B, B→C, C→A), not 4 as the claim states. -/
theorem c2_counterexample :
    plot_tour exNodes [1, 2, 3] = .ok [(0, 0), (10, 0), (10, 10), (0, 0)] ∧
    segments [(0, 0), (10, 0), (10, 10), (0, 0)] =
      [((0, 0), (10, 0)), ((10, 0), (10, 10)), ((10, 10), (0, 0))] ∧
    (segments [((0 : Rat), (0 : Rat)), (10, 0), (10, 10), (0, 0)]).length = 3 := by
  decide

/-- C2 (amended): `plot_tour` called with the three-element order
`[A, B, C]` plots the 4-point sequence A, B, C, A and hence draws exactly
3 line segments, namely A→B, B→C and C→A (the closing edge). -/
theorem c2_three_nodes_three_segments (nodes : NodeTable) (a b c : Int) (pa pb pc : Rat × Rat)
    (ha : lookupNode nodes a = some pa) (hb : lookupNode nodes b = some pb)
    (hc : lookupNode nodes c = some pc) :
    plot_tour nodes [a, b, c] = .ok [pa, pb, pc, pa] ∧
    segments [pa, pb, pc, pa] = [(pa, pb), (pb, pc), (pc, pa)] ∧
    (segments [pa, pb, pc, pa]).length = 3 := by
  refine ⟨?_, rfl, rfl⟩
  simp [plot_tour, collectPoints, ha, hb, hc]

/-- Witness for C2 (amended) on the spec's triangle scenario. -/
theorem c2_witness :
    plot_tour exNodes [3, 1, 2] = .ok [(10, 10), (0, 0), (10, 0), (10, 10)] ∧
    segments [(10, 10), (0, 0), (10, 0), (10, 10)] =
      [(((10 : Rat), (10 : Rat)), ((0 : Rat), (0 : Rat))), ((0, 0), (10, 0)),
        ((10, 0), (10, 10))] ∧
    (segments [((10 : Rat), (10 : Rat)), (0, 0), (10, 0), (10, 10)]).length = 3 :=
  c2_three_nodes_three_segments exNodes 3 1 2 (10, 10) (0, 0) (10, 0)
    (by decide) (by decide) (by decide)

/-! ### C4: missing marker -/

/-- C4: when no line of the file passes the marker test, `parse_node_data`
fails with the missing-section error and returns no table at all. -/
theorem c4_no_marker_fails (lines : List String) (h : ∀ l ∈ lines, isMarker l = false) :
    parse_node_data lines = .error .formatError := by
  simp [parse_node_data, findMarker_eq_none lines h]

/-- Witness for C4: a file with a name line and a trailing sentinel but no
marker line. -/
theorem c4_witness : parse_node_data ["NAME: test", "EOF"] = .error .formatError :=
  c4_no_marker_fails ["NAME: test", "EOF"] (by decide)

/-! ### C3: well-formed files load completely -/

/-- C3: for a file whose marker is followed by coordinate lines that all
parse (distinct identifiers), `parse_node_data` returns a table with one
entry per coordinate line, keyed by the parsed identifiers and storing
the parsed coordinates. -/
theorem c3_wellformed_load (header : List String) (marker : String) (rest : List String)
    (recs : List (Int × Rat × Rat))
    (hh : ∀ l ∈ header, isMarker l = false) (hm : isMarker marker = true)
    (hrec : parseAll rest = some recs) (hnd : (recs.map Prod.fst).Nodup) :
    ∃ t, parse_node_data (header ++ marker :: rest) = .ok t ∧
      t.length = rest.length ∧ ∀ r ∈ recs, lookupNode t r.1 = some r.2 := by
  refine ⟨recs, ?_, ?_, ?_⟩
  · simp only [parse_node_data, findMarker_append header marker rest hh hm]
    rw [loadCoords_of_parseAll rest recs hrec [],
      foldl_insertNode_fresh recs [] hnd (by simp), List.nil_append]
  · exact parseAll_length rest recs hrec
  · intro r hr
    exact lookupNode_of_mem_nodup recs hnd r hr

/-- Witness for C3 on the spec's concrete scenario (without the short
`EOF` sentinel line, which is not a coordinate line). -/
theorem c3_witness :
    ∃ t, parse_node_data (["NAME: test"] ++ "NODE_COORD_SECTION" ::
        ["1 0.0 0.0", "2 10.0 0.0", "3 10.0 10.0"]) = .ok t ∧
      t.length = (["1 0.0 0.0", "2 10.0 0.0", "3 10.0 10.0"] : List String).length ∧
      ∀ r ∈ exNodes, lookupNode t r.1 = some r.2 :=
  c3_wellformed_load ["NAME: test"] "NODE_COORD_SECTION"
    ["1 0.0 0.0", "2 10.0 0.0", "3 10.0 10.0"] exNodes
    (by decide) (by decide) (by decide) (by decide)

/-! ### C5: skip short lines, fail on malformed tokens -/

/-- C5: a post-marker line with fewer than three tokens is silently
skipped (loading continues over the remaining lines with the table
unchanged), whereas a line with three or more tokens whose first token is
not a valid integer or whose second or third is not a valid float makes
the whole load fail hard with the parse error. -/
theorem c5_skip_short_fail_malformed (nodes : NodeTable) (line : String) (rest : List String) :
    ((splitWs line.toList).length < 3 →
      loadCoords nodes (line :: rest) = loadCoords nodes rest) ∧
    (∀ p0 p1 p2 ps, splitWs line.toList = p0 :: p1 :: p2 :: ps →
      (parseInt p0 = none ∨ parseFloat p1 = none ∨ parseFloat p2 = none) →
      loadCoords nodes (line :: rest) = .error .parseError) := by
  constructor
  · intro hlen
    simp only [loadCoords,
      parseLineInto_of_short nodes line (lineTriple_none_of_short line hlen)]
  · intro p0 p1 p2 ps hs hbad
    have ht : lineTriple line = some (p0, p1, p2) := by
      unfold lineTriple
      rw [hs]
    have hpc : parseCoordLine line = none := by
      simp only [parseCoordLine, ht]
      rcases hbad with h0 | h1 | h2
      · rw [h0]
      · rw [h1]
        cases parseInt p0 <;> rfl
      · rw [h2]
        cases parseInt p0 <;> cases parseFloat p1 <;> rfl
    simp only [loadCoords, parseLineInto_of_malformed nodes line (p0, p1, p2) ht hpc]

/-- Witness for C5: the sentinel `EOF` is skipped; a line whose first
token is not an integer aborts the load even with lines remaining. -/
theorem c5_witness :
    loadCoords [] ["EOF"] = loadCoords [] [] ∧
    loadCoords [] ["x 1.0 2.0", "1 0.0 0.0"] = .error .parseError :=
  ⟨(c5_skip_short_fail_malformed [] "EOF" []).1 (by decide),
    (c5_skip_short_fail_malformed [] "x 1.0 2.0" ["1 0.0 0.0"]).2
      "x".toList "1.0".toList "2.0".toList [] (by decide) (Or.inl (by decide))⟩

/-! ### C10: marker with no coordinate lines -/

theorem loadCoords_all_short (nodes : NodeTable) (rest : List String)
    (hshort : ∀ l ∈ rest, (splitWs l.toList).length < 3) :
    loadCoords nodes rest = .ok nodes := by
  induction rest with
  | nil => rfl
  | cons line rest' ih =>
    have ht : lineTriple line = none :=
      lineTriple_none_of_short line (hshort line (by simp))
    simp only [loadCoords, parseLineInto_of_short nodes line ht]
    exact ih fun l hl => hshort l (by simp [hl])

/-- C10: when the marker is present but no later line reaches three
tokens, `parse_node_data` succeeds with the empty table; emptiness is not
rejected at load time. -/
theorem c10_no_coord_lines_empty_table (header : List String) (marker : String)
    (rest : List String)
    (hh : ∀ l ∈ header, isMarker l = false) (hm : isMarker marker = true)
    (hshort : ∀ l ∈ rest, (splitWs l.toList).length < 3) :
    parse_node_data (header ++ marker :: rest) = .ok [] := by
  simp only [parse_node_data, findMarker_append header marker rest hh hm]
  exact loadCoords_all_short [] rest hshort

/-- Witness for C10: a header, the marker, and only a short sentinel
line after it. -/
theorem c10_witness :
    parse_node_data (["NAME: t"] ++ "NODE_COORD_SECTION" :: ["EOF"]) = .ok [] :=
  c10_no_coord_lines_empty_table ["NAME: t"] "NODE_COORD_SECTION" ["EOF"]
    (by decide) (by decide) (by decide)

/-! ### C7: empty visiting order -/

/-- C7: on an empty order, `plot_tour` fails (the `tour_x[0]` indexing
error, the spec's invalid-input failure) and no image file is written. -/
theorem c7_empty_order_fails (nodes : NodeTable) :
    plot_tour nodes [] = .error .indexError ∧ savedImage nodes [] = none :=
  ⟨rfl, rfl⟩

/-! ### C6: unknown identifier in the order -/

theorem collectPoints_missing (nodes : NodeTable) (indices : List Int) (i : Int)
    (hmem : i ∈ indices) (habs : lookupNode nodes i = none) :
    ∃ j, lookupNode nodes j = none ∧ collectPoints nodes indices = .error (.keyError j) := by
  induction indices with
  | nil => cases hmem
  | cons a rest ih =>
    cases ha : lookupNode nodes a with
    | none => exact ⟨a, ha, by simp [collectPoints, ha]⟩
    | some p =>
      have hia : i ≠ a := fun hc => by rw [hc, ha] at habs; cases habs
      have hmem' : i ∈ rest := by
        rcases List.mem_cons.mp hmem with h | h
        · exact absurd h hia
        · exact h
      obtain ⟨j, hj, hcol⟩ := ih hmem'
      exact ⟨j, hj, by simp [collectPoints, ha, hcol]⟩

/-- C6: when the order contains an identifier absent from the table,
`plot_tour` fails with the unknown-identifier error (the `KeyError` on
the first absent identifier reached) and no image file is written. -/
theorem c6_unknown_id_fails (nodes : NodeTable) (indices : List Int) (i : Int)
    (hmem : i ∈ indices) (habs : lookupNode nodes i = none) :
    (∃ j, lookupNode nodes j = none ∧ plot_tour nodes indices = .error (.keyError j)) ∧
    savedImage nodes indices = none := by
  obtain ⟨j, hj, hcol⟩ := collectPoints_missing nodes indices i hmem habs
  have hpt : plot_tour nodes indices = .error (.keyError j) := by
    simp [plot_tour, hcol]
  exact ⟨⟨j, hj, hpt⟩, by simp [savedImage, hpt]⟩

/-- Witness for C6: the spec's scenario with order `[1, 2, 4]`, where
identifier 4 is absent. -/
theorem c6_witness :
    (∃ j, lookupNode exNodes j = none ∧
      plot_tour exNodes [1, 2, 4] = .error (.keyError j)) ∧
    savedImage exNodes [1, 2, 4] = none :=
  c6_unknown_id_fails exNodes [1, 2, 4] 4 (by decide) (by decide)

/-! ### C8: visiting order and the closing edge -/

theorem collectPoints_of_lookupAll (nodes : NodeTable) (indices : List Int)
    (pts : List (Rat × Rat)) (h : lookupAll nodes indices = some pts) :
    collectPoints nodes indices = .ok pts := by
  induction indices generalizing pts with
  | nil =>
    unfold lookupAll at h
    cases h
    rfl
  | cons a rest ih =>
    unfold lookupAll at h
    cases ha : lookupNode nodes a with
    | none => rw [ha] at h; cases h
    | some p =>
      rw [ha] at h
      cases hr : lookupAll nodes rest with
      | none => rw [hr] at h; cases h
      | some ps =>
        rw [hr] at h
        cases h
        simp [collectPoints, ha, ih ps hr]

/-- C8: on a non-empty order whose identifiers are all present, the
plotted point sequence is exactly the orders' coordinates in the given
order followed by the first coordinate repeated: the renderer itself
appends the closing edge from the last node back to the first. -/
theorem c8_closed_tour (nodes : NodeTable) (indices : List Int) (p0 : Rat × Rat)
    (pts : List (Rat × Rat)) (h : lookupAll nodes indices = some (p0 :: pts)) :
    plot_tour nodes indices = .ok ((p0 :: pts) ++ [p0]) := by
  have hcol : collectPoints nodes indices = .ok (p0 :: pts) :=
    collectPoints_of_lookupAll nodes indices (p0 :: pts) h
  simp [plot_tour, hcol]

/-- Witness for C8: the spec's triangle with order `[1, 2, 3]` plots the
closed sequence (0,0), (10,0), (10,10), (0,0). -/
theorem c8_witness :
    plot_tour exNodes [1, 2, 3] = .ok (((0, 0) :: [(10, 0), (10, 10)]) ++ [(0, 0)]) :=
  c8_closed_tour exNodes [1, 2, 3] (0, 0) [(10, 0), (10, 10)] (by decide)

/-! ### C9: duplicate identifiers, last line wins -/

theorem lookupNode_insertNode (t : NodeTable) (k : Int) (v : Rat × Rat) (j : Int) :
    lookupNode (insertNode t k v) j = if k = j then some v else lookupNode t j := by
  induction t with
  | nil => simp [insertNode, lookupNode]
  | cons e t' ih =>
    obtain ⟨k', v'⟩ := e
    by_cases hk : k' = k
    · subst hk
      by_cases hj : k' = j <;> simp [insertNode, lookupNode, hj]
    · simp only [insertNode, if_neg hk, lookupNode, ih]
      by_cases hj : k' = j <;> by_cases hkj : k = j <;> simp [hj, hkj]
      exact absurd (hj.trans hkj.symm) hk

theorem lookupNode_foldl_insert (recs : List (Int × Rat × Rat)) (t : NodeTable) (i : Int) :
    lookupNode (recs.foldl (fun t' r => insertNode t' r.1 r.2) t) i =
      match recs.reverse.find? (fun r => r.1 == i) with
      | some r => some r.2
      | none => lookupNode t i := by
  induction recs generalizing t with
  | nil => simp
  | cons r rs ih =>
    rw [List.foldl_cons, ih (insertNode t r.1 r.2), List.reverse_cons, List.find?_append]
    cases hf : rs.reverse.find? (fun r => r.1 == i) with
    | some r' => simp [hf]
    | none =>
      simp only [hf, Option.none_or, List.find?_singleton]
      rw [lookupNode_insertNode]
      by_cases hri : r.1 = i
      · simp [hri]
      · simp [hri]

theorem insertNode_length (t : NodeTable) (k : Int) (v : Rat × Rat) :
    (insertNode t k v).length ≤ t.length + 1 := by
  induction t with
  | nil => simp [insertNode]
  | cons e t' ih =>
    obtain ⟨k', v'⟩ := e
    simp only [insertNode]
    split_ifs
    · simp
    · simpa using Nat.succ_le_succ ih

theorem foldl_insert_length (recs : List (Int × Rat × Rat)) (t : NodeTable) :
    (recs.foldl (fun t' r => insertNode t' r.1 r.2) t).length ≤ t.length + recs.length := by
  induction recs generalizing t with
  | nil => simp
  | cons r rs ih =>
    rw [List.foldl_cons]
    calc (rs.foldl (fun t' r => insertNode t' r.1 r.2) (insertNode t r.1 r.2)).length
        ≤ (insertNode t r.1 r.2).length + rs.length := ih (insertNode t r.1 r.2)
      _ ≤ t.length + (r :: rs).length := by
          have h1 := insertNode_length t r.1 r.2
          simp only [List.length_cons]
          omega

/-- C9: a file whose coordinate lines repeat an identifier still loads
without error; the table maps the repeated identifier to the coordinates
of its last line, and can hold fewer entries than there are lines. -/
theorem c9_duplicates_last_wins (marker : String) (rest : List String)
    (recs : List (Int × Rat × Rat)) (hm : isMarker marker = true)
    (hrec : parseAll rest = some recs) :
    ∃ t, parse_node_data (marker :: rest) = .ok t ∧ t.length ≤ recs.length ∧
      ∀ i, lookupNode t i = lastVal recs i := by
  refine ⟨recs.foldl (fun t' r => insertNode t' r.1 r.2) [], ?_, ?_, ?_⟩
  · simp only [parse_node_data, findMarker, hm, if_true]
    exact loadCoords_of_parseAll rest recs hrec []
  · simpa using foldl_insert_length recs []
  · intro i
    rw [lookupNode_foldl_insert]
    unfold lastVal
    cases hf : recs.reverse.find? (fun r => r.1 == i) <;> simp [hf, lookupNode]

/-- Witness for C9: identifier 1 appears on two coordinate lines; the
table keeps one entry, holding the second line's coordinates. -/
theorem c9_witness :
    ∃ t, parse_node_data ["NODE_COORD_SECTION", "1 0.0 0.0", "1 5.0 5.0"] = .ok t ∧
      t.length ≤ ([(1, 0, 0), (1, 5, 5)] : List (Int × Rat × Rat)).length ∧
      ∀ i, lookupNode t i = lastVal [(1, 0, 0), (1, 5, 5)] i :=
  c9_duplicates_last_wins "NODE_COORD_SECTION" ["1 0.0 0.0", "1 5.0 5.0"]
    [(1, 0, 0), (1, 5, 5)] (by decide) (by decide)

end PlotTsp
